import Mathlib

set_option autoImplicit false

/-!
Shallow embedding of the pyspur node layer
(`src/backend/pyspur/nodes/`): the base node call protocol, the logic
nodes (human intervention, coalesce, merge), the for-loop node, the node
factory, the subworkflow input mapping and the input node.

A dumped pydantic model (`model_dump()`) is represented as an ordered
association list from field names to JSON-like values.
-/

namespace PySpur

/-- A JSON-like runtime value, as produced by `model_dump()`. -/
inductive Value where
  | null : Value
  | int (n : Int) : Value
  | str (s : String) : Value
  | bool (b : Bool) : Value
  | obj (fields : List (String × Value)) : Value

/-- The dump of a pydantic model: ordered field name / value pairs. -/
abbrev Obj := List (String × Value)

/-- Python `d[k]` / `k in d` on a dict rendered as an ordered association
list: the first binding of `k`, if any. -/
def dictGet {α : Type} (k : String) : List (String × α) → Option α
  | [] => none
  | (k', v) :: rest => if k' = k then some v else dictGet k rest

/-- `dictGet` with a default, Python `d.get(k, dflt)`. -/
def dictGetD {α : Type} (k : String) (d : List (String × α)) (dflt : α) : α :=
  (dictGet k d).getD dflt

/-- Python dict assignment `d[k] = v`: overwrite in place if the key is
bound, otherwise append at the end (insertion order). -/
def dictInsert {α : Type} (d : List (String × α)) (k : String) (v : α) :
    List (String × α) :=
  if k ∈ d.map Prod.fst then
    d.map fun p => if p.1 = k then (p.1, v) else p
  else d ++ [(k, v)]

/-- A sequence of Python dict assignments `d[k] = v`, left to right,
starting from `acc`. -/
def insertLoop {α : Type} : List (String × α) → List (String × α) → List (String × α)
  | [], acc => acc
  | (k, v) :: rest, acc => insertLoop rest (dictInsert acc k v)

/-! ## Human intervention node (`nodes/logic/human_intervention.py`) -/

/-- `PauseException` (human_intervention.py lines 10–17): carries the node
id, the message shown to the user, and the pass-through output. -/
structure PauseException where
  node_id : String
  message : String
  output : Option Obj

/-- `HumanInterventionNode.run` (human_intervention.py lines 81–88):
dump the input, rebuild it as a `HumanInterventionNodeOutput` (which,
with `extra = "allow"`, keeps every dumped field), and raise
`PauseException(node_id, message, output)`. It never returns normally. -/
def humanInterventionRun (node_id message : String) (input : Obj) :
    Except PauseException Obj :=
  let output_dict := input
  let output := output_dict
  Except.error { node_id := node_id, message := message, output := some output }

/-! ## Merge node (`nodes/logic/merge.py`) -/

/-- `MergeNode.run` (merge.py lines 35–50): dump the input, build an
output model with one `Optional`-typed field per dumped key, and
instantiate it with exactly the dumped data. A predecessor field whose
value is Python `None` is kept as an explicit `none` binding. -/
def mergeRun (data : List (String × Option Value)) : List (String × Option Value) :=
  data.map fun kv => (kv.1, kv.2)

/-! ## Coalesce node (`nodes/logic/coalesce.py`) -/

/-- First loop of `CoalesceNode.run` (coalesce.py lines 45–62): walk the
configured preferences in order and return the first bound, non-`None`
input value. -/
def coalescePrefLoop (data : List (String × Option Obj)) :
    List String → Option Obj
  | [] => none
  | key :: rest =>
    match dictGet key data with
    | some (some v) => some v
    | _ => coalescePrefLoop data rest

/-- Second loop of `CoalesceNode.run` (coalesce.py lines 65–81): walk the
dumped input in insertion order and return the first non-`None` value. -/
def coalesceRestLoop : List (String × Option Obj) → Option Obj
  | [] => none
  | (_, some v) :: _ => some v
  | (_, none) :: rest => coalesceRestLoop rest

/-- `CoalesceNode.run` (coalesce.py lines 34–84): preferences first, then
the remaining inputs, else no output (`return None`). -/
def coalesceRun (preferences : List String) (data : List (String × Option Obj)) :
    Option Obj :=
  match coalescePrefLoop data preferences with
  | some v => some v
  | none => coalesceRestLoop data

/-! ## Input node (`nodes/primitives/input.py`) -/

/-- `InputNode.run` (input.py lines 56–73). With `enforce_schema = True`
the input is returned unchanged. With `enforce_schema = False` the code
builds `fields = {key: (value, ...) for key, value in
input.model_fields.items()}`, passing each `FieldInfo` value as the
**type annotation** to `create_model("InputNodeOutput", ...)`: pydantic
2.x cannot generate a core schema for a `FieldInfo` annotation, so
`create_model` raises `PydanticSchemaGenerationError` whenever the input
has at least one field, and `model_validate` is never reached. (With no
fields at all no `FieldInfo` annotation exists: `create_model` succeeds
and validating the empty dump returns the empty instance.) The
configured `output_schema` is never consulted in either branch. -/
def inputNodeRun (enforce_schema : Bool) (output_schema : List (String × String))
    (input : Obj) : Except String Obj :=
  if enforce_schema then Except.ok input
  else if input.isEmpty then Except.ok []
  else Except.error "PydanticSchemaGenerationError"

/-! ## Subworkflow input mapping (`nodes/subworkflow/base_subworkflow_node.py`) -/

/-- `BaseSubworkflowNode._map_input` (base_subworkflow_node.py lines
66–77). `get` abstracts `get_nested_field(path, input)` (defined in
`utils/pydantic_utils.py`, which is not under `src/`): the value found at
a dotted field path in the parent input. An absent map (`None`) and an
empty map both forward the whole dumped input; otherwise each configured
subworkflow input field is assigned the value at its configured path. -/
def subworkflowMapInput (get : String → Value)
    (input_map : Option (List (String × String))) (inputDump : Obj) : Obj :=
  match input_map with
  | none => inputDump
  | some [] => inputDump
  | some m => insertLoop (m.map fun p => (p.1, get p.2)) []

/-! ## Composite input construction (`nodes/base.py`) -/

/-- A predecessor output instance as seen by `BaseNode.__call__`: a
pydantic object carrying its runtime class name and its dump. -/
structure NodeInstance where
  className : String
  dump : Obj

/-- The mapping branch of `BaseNode.__call__` together with
`BaseNode.create_composite_model_instance` (base.py lines 222–245 and
266–279): from a dict of predecessor outputs, a composite model is
created with one field per **output class name**, and the data dict binds
each instance's class name to its dump — the dict's keys are never
consulted. Validating `data` against that composite model returns the
same bindings. -/
def buildCompositeData (input : List (String × NodeInstance)) : Obj :=
  insertLoop ((input.map Prod.snd).map fun inst =>
    (inst.className, Value.obj inst.dump)) []

/-! ## Output validation stage of `BaseNode.__call__` (`nodes/base.py`) -/

/-- Errors escaping the output-validation stage of `BaseNode.__call__`. -/
inductive CallError where
  /-- `ValueError("Output validation error in <name>: <e>")` raised by the
  `except Exception` arm (base.py line 292): carries the node's name. -/
  | outputValidation (node_name : String) (err : String)
  /-- A pydantic `ValidationError` raised by `model_validate` inside the
  `except AttributeError` arm (base.py line 290), which sits outside the
  guarded region: carries no node name. -/
  | untaggedValidation (err : String)
deriving DecidableEq

/-- Output stage of `BaseNode.__call__` (base.py lines 285–295), after
`run` returned `result`. `result = some r` is a pydantic model: its dump
is validated, and a failure is re-raised tagged with the node's name.
`result = none` is Python `None` (as `CoalesceNode.run` returns when all
inputs are null): `None.model_dump()` raises `AttributeError`, so
`model_validate` is applied to `None` itself, outside the
`except Exception` guard, and a failure propagates untagged. -/
def callOutputStage (node_name : String) (validate : Value → Except String Obj)
    (result : Option Obj) : Except CallError Obj :=
  match result with
  | some r =>
    match validate (Value.obj r) with
    | Except.ok out => Except.ok out
    | Except.error e => Except.error (CallError.outputValidation node_name e)
  | none =>
    match validate Value.null with
    | Except.ok out => Except.ok out
    | Except.error e => Except.error (CallError.untaggedValidation e)

/-- Whether an output-stage result is a validation failure tagged with a
node name. -/
def isTaggedValidation : Except CallError Obj → Bool
  | Except.error (CallError.outputValidation _ _) => true
  | _ => false

/-- Whether an output-stage result is a failure at all. -/
def isCallFailure : Except CallError Obj → Bool
  | Except.error _ => true
  | Except.ok _ => false

/-- Pydantic `model_validate` of a model with no required fields (such as
`CoalesceNodeOutput`): any dict validates; non-dict input (for example
`None`) is rejected. -/
def strictDictValidate : Value → Except String Obj
  | Value.obj fields => Except.ok fields
  | _ => Except.error "Input should be a valid dictionary"

/-- A validator that rejects every value, standing for an output model
the result does not match. -/
def rejectAllValidate : Value → Except String Obj :=
  fun _ => Except.error "bad"

/-! ## For-loop node (`nodes/loops/for_loop_node.py`) -/

/-- `ForLoopNode.stopping_condition` (for_loop_node.py lines 38–40):
stop once the iteration counter has reached `num_iterations`. -/
def stoppingCondition (iteration num_iterations : Int) : Bool :=
  decide (iteration ≥ num_iterations)

/-- Modelled from the spec: the iteration driver of the loop unit
(`BaseLoopSubworkflowNode.run`; its file `base_loop_subworkflow_node.py`
is not under `src/`). Spec §4.6: "repeatedly executes the nested
pipeline; each iteration's extracted output becomes the next iteration's
input; an iteration counter increments each pass; iteration stops when a
configured predicate holds" — here the `ForLoopNode` predicate
`stoppingCondition`. `body` is one nested-Executor invocation of the
inner pipeline; the result pairs the final extracted output with the
number of nested-Executor invocations performed. -/
def loopDrive {α : Type} (num_iterations : Int) (body : α → α)
    (iteration : Int) (s : α) : α × Nat :=
  if stoppingCondition iteration num_iterations then (s, 0)
  else
    let r := loopDrive num_iterations body (iteration + 1) (body s)
    (r.1, r.2 + 1)
termination_by (num_iterations - iteration).toNat
decreasing_by
  simp only [stoppingCondition, decide_eq_true_eq, not_le, ge_iff_le] at *
  omega

/-! ## Node factory (`nodes/factory.py`) -/

/-- One registered node type: `{node_type_name, module, class_name}`, the
shape shared by `SUPPORTED_NODE_TYPES` entries and
`NodeRegistry.get_registered_nodes()` entries (and by `NodeTypeSchema`). -/
structure NodeTypeEntry where
  node_type_name : String
  module : String
  class_name : String
deriving DecidableEq

/-- A catalog: category name → registered entries, in insertion order.
Instantiates both the static `SUPPORTED_NODE_TYPES` catalog and the
dynamic `NodeRegistry` contents (both live in files not under `src/`, so
their contents are kept abstract). -/
abbrev Catalog := List (String × List NodeTypeEntry)

/-- Python truthiness of an optional string: `None` and `""` are falsy.
`create_node` breaks out of its search loops on `if module_name and
class_name`. -/
def foundTruthy : Option (String × String) → Bool
  | some (m, c) => !(m == "") && !(c == "")
  | none => false

/-- The search loops of `NodeFactory.create_node` (factory.py lines
75–94): scan the catalog's groups in order; in each group take the first
entry matching `type_name` (overwriting any previous, untruthy find);
stop as soon as the find is truthy. -/
def scanGroups (type_name : String) :
    List (List NodeTypeEntry) → Option (String × String) → Option (String × String)
  | [], st => st
  | g :: gs, st =>
    let st' :=
      match g.find? (fun e => e.node_type_name == type_name) with
      | some e => some (e.module, e.class_name)
      | none => st
    if foundTruthy st' then st' else scanGroups type_name gs st'

/-- Whether `type_name` occurs anywhere in a catalog. -/
def registeredIn (c : Catalog) (type_name : String) : Bool :=
  c.any fun g => g.2.any fun e => e.node_type_name == type_name

/-- Modelled from the spec: `is_valid_node_type` lives in
`node_types.py`, which is not under `src/`. Spec §4.2: a type name is
known iff it is registered in the static catalog or in the dynamic
registry. -/
def is_valid_node_type (staticCatalog dynRegistry : Catalog)
    (type_name : String) : Bool :=
  registeredIn staticCatalog type_name || registeredIn dynRegistry type_name

/-- Failures of `NodeFactory.create_node`, the spec's `UnknownTypeError`. -/
inductive FactoryError where
  /-- `ValueError("Node type '...' is not valid.")` (factory.py line 69). -/
  | invalidType (type_name : String)
  /-- `ValueError("Node type '...' not found.")` (factory.py line 97). -/
  | typeNotFound (type_name : String)
deriving DecidableEq

/-- The node instance built by `node_class(name=node_name, **config)`:
which class was resolved, and under which instance name. -/
structure CreatedNode where
  name : String
  module : String
  class_name : String
deriving DecidableEq

/-- `NodeFactory.create_node` (factory.py lines 64–107): reject invalid
type names, then search the static catalog first and the dynamic
registry only if that search found nothing truthy; fail with "not found"
when neither search produced a truthy module/class pair. -/
def create_node (staticCatalog dynRegistry : Catalog)
    (node_name type_name : String) : Except FactoryError CreatedNode :=
  if ¬ is_valid_node_type staticCatalog dynRegistry type_name then
    Except.error (FactoryError.invalidType type_name)
  else
    let st1 := scanGroups type_name (staticCatalog.map Prod.snd) none
    let st2 :=
      if ¬ foundTruthy st1 then
        scanGroups type_name (dynRegistry.map Prod.snd) st1
      else st1
    match st2 with
    | some (m, c) =>
      if foundTruthy (some (m, c)) then
        Except.ok { name := node_name, module := m, class_name := c }
      else Except.error (FactoryError.typeNotFound type_name)
    | none => Except.error (FactoryError.typeNotFound type_name)

/-- Every registered entry carries a nonempty module and class name (as
all real registrations do: modules come from `__module__`, class names
from `__name__`). -/
def wellFormedCatalog (c : Catalog) : Prop :=
  ∀ g ∈ c, ∀ e ∈ g.2, e.module ≠ "" ∧ e.class_name ≠ ""

instance wellFormedCatalogDecidable (c : Catalog) :
    Decidable (wellFormedCatalog c) :=
  inferInstanceAs
    (Decidable (∀ g ∈ c, ∀ e ∈ g.2, e.module ≠ "" ∧ e.class_name ≠ ""))

/-- Append an entry to the list bound to `cat` (Python
`result[category].append(node)`). -/
def listingAppend (res : Catalog) (cat : String) (e : NodeTypeEntry) : Catalog :=
  res.map fun p => if p.1 = cat then (p.1, p.2 ++ [e]) else p

/-- Inner loop of `NodeFactory.get_all_node_types` (factory.py lines
57–59): append each registered entry to its category unless an entry
with the same `node_type_name` is already present **in that category**. -/
def mergeCategory (res : Catalog) (cat : String)
    (nodes : List NodeTypeEntry) : Catalog :=
  nodes.foldl
    (fun r e =>
      if (dictGetD cat r []).any (fun n => n.node_type_name == e.node_type_name)
      then r
      else listingAppend r cat e)
    res

/-- `NodeFactory.get_all_node_types` (factory.py lines 30–61): start from
the configured (static) nodes, then fold in the registry's categories,
creating missing categories and deduplicating by type name only within
the same category. -/
def factory_get_all_node_types (configured registered : Catalog) : Catalog :=
  registered.foldl
    (fun result p =>
      let result' :=
        if p.1 ∈ result.map Prod.fst then result else result ++ [(p.1, [])]
      mergeCategory result' p.1 p.2)
    configured

/-! ## Helper lemmas -/

theorem dictInsert_fresh {α : Type} (d : List (String × α)) (k : String) (v : α)
    (h : k ∉ d.map Prod.fst) : dictInsert d k v = d ++ [(k, v)] := by
  simp [dictInsert, h]

theorem insertLoop_fresh {α : Type} (l : List (String × α)) :
    ∀ acc : List (String × α), (l.map Prod.fst).Nodup →
      (∀ p ∈ l, p.1 ∉ acc.map Prod.fst) → insertLoop l acc = acc ++ l := by
  induction l with
  | nil => intro acc _ _; simp [insertLoop]
  | cons hd tl ih =>
    intro acc hnd hfresh
    obtain ⟨k, v⟩ := hd
    rw [List.map_cons, List.nodup_cons] at hnd
    obtain ⟨hk, hnd'⟩ := hnd
    rw [insertLoop, dictInsert_fresh acc k v (hfresh (k, v) (by simp))]
    rw [ih (acc ++ [(k, v)]) hnd']
    · simp
    · intro p hp
      simp only [List.map_append, List.mem_append]
      refine fun hmem => ?_
      rcases hmem with hmem | hmem
      · exact hfresh p (by simp [hp]) hmem
      · simp only [List.map_cons, List.map_nil, List.mem_singleton] at hmem
        exact hk (hmem ▸ (List.mem_map_of_mem Prod.fst hp : p.1 ∈ tl.map Prod.fst))

theorem dictGet_of_not_mem {α : Type} (k : String) (d : List (String × α))
    (h : k ∉ d.map Prod.fst) : dictGet k d = none := by
  induction d with
  | nil => rfl
  | cons hd tl ih =>
    simp only [List.map_cons, List.mem_cons] at h
    push_neg at h
    rw [dictGet, if_neg (fun he => h.1 he.symm)]
    exact ih h.2

/-! ## C1: the human-intervention node -/

/-- C1: for every input, `HumanInterventionNode.run` never returns
normally: it always raises a `PauseException` whose payload carries the
node id, the configured message, and an output equal field-for-field to
the input it was given (pass-through semantics). -/
theorem human_intervention_always_pauses (node_id message : String) (input : Obj) :
    (∀ out : Obj, humanInterventionRun node_id message input ≠ Except.ok out) ∧
    humanInterventionRun node_id message input =
      Except.error { node_id := node_id, message := message, output := some input } :=
  ⟨fun _ h => by simp [humanInterventionRun] at h, rfl⟩

/-! ## C4: the merge node -/

/-- C4: for every input mapping of predecessor names to values, the merge
node's output contains exactly one field per predecessor, with the same
name and the same value; a predecessor whose value is absent (Python
`None`) appears as an explicit null binding, not as an omitted field. -/
theorem merge_keeps_every_field (data : List (String × Option Value)) :
    (mergeRun data).map Prod.fst = data.map Prod.fst ∧
    (∀ k, dictGet k (mergeRun data) = dictGet k data) ∧
    (∀ k, dictGet k data = some none → dictGet k (mergeRun data) = some none) := by
  have hid : mergeRun data = data := by simp [mergeRun]
  exact ⟨by rw [hid], fun k => by rw [hid], fun k h => by rwa [hid]⟩

/-! ## C3: the coalesce node -/

theorem coalescePrefLoop_eq (data : List (String × Option Obj))
    (preferences : List String) :
    coalescePrefLoop data preferences =
      (preferences.filterMap fun k => (dictGet k data).join).head? := by
  induction preferences with
  | nil => rfl
  | cons key rest ih =>
    rw [coalescePrefLoop]
    cases h : dictGet key data with
    | none => simp [List.filterMap_cons, h, Option.join, ih]
    | some v =>
      cases v with
      | none => simp [List.filterMap_cons, h, Option.join, ih]
      | some w => simp [List.filterMap_cons, h, Option.join]

theorem coalesceRestLoop_eq (preferences : List String) :
    ∀ data : List (String × Option Obj), (data.map Prod.fst).Nodup →
      (∀ k ∈ preferences, (dictGet k data).join = none) →
      coalesceRestLoop data =
        ((data.filter fun p => p.1 ∉ preferences).filterMap Prod.snd).head? := by
  intro data
  induction data with
  | nil => intro _ _; rfl
  | cons hd tl ih =>
    intro hnd hall
    obtain ⟨k, v⟩ := hd
    rw [List.map_cons, List.nodup_cons] at hnd
    obtain ⟨hk, hnd'⟩ := hnd
    cases v with
    | some val =>
      have hkp : k ∉ preferences := by
        intro hkin
        have hjoin := hall k hkin
        rw [dictGet, if_pos rfl] at hjoin
        simp [Option.join] at hjoin
      rw [coalesceRestLoop]
      simp [List.filter_cons, hkp]
    | none =>
      rw [coalesceRestLoop]
      rw [ih hnd' ?hall']
      · by_cases hkp : k ∈ preferences <;>
          simp [List.filter_cons, hkp, List.filterMap_cons]
      case hall' =>
        intro p hp
        have h1 := hall p hp
        by_cases hpk : p = k
        · subst hpk
          rw [dictGet_of_not_mem p tl hk]
          rfl
        · rw [dictGet, if_neg (fun he => hpk he.symm)] at h1
          exact h1

/-- C3: for every preference list and every input mapping with distinct
predecessor names, the coalesce node outputs the value of the first name
in the preference list whose value is non-null; failing that, the first
non-null value among the remaining (non-preferred) predecessors; and no
output at all when every value is null or absent. -/
theorem coalesce_first_non_null (preferences : List String)
    (data : List (String × Option Obj)) (hnd : (data.map Prod.fst).Nodup) :
    coalesceRun preferences data =
      match (preferences.filterMap fun k => (dictGet k data).join).head? with
      | some v => some v
      | none =>
        ((data.filter fun p => p.1 ∉ preferences).filterMap Prod.snd).head? := by
  rw [coalesceRun]
  cases hh : (preferences.filterMap fun k => (dictGet k data).join).head? with
  | some v =>
    rw [coalescePrefLoop_eq data preferences, hh]
  | none =>
    rw [coalescePrefLoop_eq data preferences, hh]
    refine coalesceRestLoop_eq preferences data hnd ?_
    intro k hkin
    rw [List.head?_eq_none_iff, List.filterMap_eq_nil_iff] at hh
    exact hh k hkin

/-- Witness for C3, at the spec's own example: with preferences
`["B", "A"]`, `A` null and `B = {"v": 3}` the output is `{"v": 3}`;
with both null there is no output. -/
theorem coalesce_first_non_null_witness :
    coalesceRun ["B", "A"] [("A", none), ("B", some [("v", Value.int 3)])] =
      some [("v", Value.int 3)] ∧
    coalesceRun ["B", "A"] [("A", none), ("B", none)] = none := by
  constructor
  · have h := coalesce_first_non_null ["B", "A"]
      [("A", none), ("B", some [("v", Value.int 3)])] (by decide)
    rw [h]
    rfl
  · have h := coalesce_first_non_null ["B", "A"]
      [("A", none), ("B", none)] (by decide)
    rw [h]
    rfl

/-! ## C10: the input node -/

/-- C10 (code bug): `InputNode.run` is the identity on field values only
when `enforce_schema = True`. With `enforce_schema = False` — the
default — `create_model` receives `FieldInfo` annotations and raises
`PydanticSchemaGenerationError` for every input with at least one field,
so `run` raises instead of returning the input — contradicting the
`enforce_schema` field's own description ("Otherwise the output will be
the same as the input", input.py line 18). The configured
`output_schema` still never alters the result in either branch. -/
theorem input_node_run_crashes_without_enforce
    (output_schema : List (String × String)) (input : Obj) :
    inputNodeRun true output_schema input = Except.ok input ∧
    (input ≠ [] → inputNodeRun false output_schema input =
      Except.error "PydanticSchemaGenerationError") ∧
    (∀ schema2 : List (String × String), ∀ es : Bool,
      inputNodeRun es schema2 input = inputNodeRun es output_schema input) := by
  refine ⟨rfl, fun h => ?_, fun _ _ => rfl⟩
  cases input with
  | nil => exact absurd rfl h
  | cons a l => rfl

/-- Witness for C10: at the concrete input `{"input_1": "x"}` the
`enforce_schema = True` branch is the identity and the default
`enforce_schema = False` branch raises the schema-generation error. -/
theorem input_node_run_crashes_without_enforce_witness :
    inputNodeRun true [("output", "string")] [("input_1", Value.str "x")] =
      Except.ok [("input_1", Value.str "x")] ∧
    inputNodeRun false [("output", "string")] [("input_1", Value.str "x")] =
      Except.error "PydanticSchemaGenerationError" :=
  ⟨(input_node_run_crashes_without_enforce [("output", "string")]
      [("input_1", Value.str "x")]).1,
   (input_node_run_crashes_without_enforce [("output", "string")]
      [("input_1", Value.str "x")]).2.1 (List.cons_ne_nil _ _)⟩

/-! ## C9: the subworkflow input mapping -/

/-- C9: with no input map configured (absent or empty), the subworkflow
node forwards the whole parent input unchanged; with a configured map
over distinct subworkflow field names, each configured field receives
exactly the value at its configured path in the parent input, and only
the configured fields are forwarded. -/
theorem subworkflow_map_input_spec (get : String → Value)
    (m : List (String × String)) (inputDump : Obj)
    (hm : m ≠ []) (hnd : (m.map Prod.fst).Nodup) :
    subworkflowMapInput get none inputDump = inputDump ∧
    subworkflowMapInput get (some []) inputDump = inputDump ∧
    subworkflowMapInput get (some m) inputDump =
      (m.map fun p => (p.1, get p.2)) := by
  refine ⟨rfl, rfl, ?_⟩
  cases m with
  | nil => exact absurd rfl hm
  | cons hd tl =>
    show insertLoop ((hd :: tl).map fun p => (p.1, get p.2)) [] = _
    rw [insertLoop_fresh ((hd :: tl).map fun p => (p.1, get p.2)) []]
    · simp
    · have hkeys : (((hd :: tl).map fun p => (p.1, get p.2)).map Prod.fst) =
          (hd :: tl).map Prod.fst := by
        simp [List.map_map, Function.comp]
      rw [hkeys]
      exact hnd
    · intro p _
      simp

/-- Witness for C9: a concrete one-entry input map and a concrete parent
input, plus both empty-map forms. -/
theorem subworkflow_map_input_spec_witness :
    subworkflowMapInput (fun _ => Value.null) none [("z", Value.int 7)] =
      [("z", Value.int 7)] ∧
    subworkflowMapInput (fun _ => Value.null) (some []) [("z", Value.int 7)] =
      [("z", Value.int 7)] ∧
    subworkflowMapInput (fun _ => Value.null) (some [("a", "x.y")])
      [("z", Value.int 7)] = [("a", Value.null)] :=
  subworkflow_map_input_spec (fun _ => Value.null) [("a", "x.y")]
    [("z", Value.int 7)] (by decide) (by decide)

/-! ## C6: composite input construction in `BaseNode.__call__` -/

/-- Counterexample to C6 as stated: a predecessor mapping under key `"A"`
whose output instance has runtime class name `"B"` yields a composite
whose only field is named `"B"`, not after the predecessor key `"A"`. -/
theorem composite_field_named_after_class_not_key :
    buildCompositeData [("A", { className := "B", dump := [] })] =
      [("B", Value.obj [])] ∧
    (buildCompositeData [("A", { className := "B", dump := [] })]).map Prod.fst ≠
      ["A"] :=
  ⟨rfl, by decide⟩

/-- C6 (amended): the composite input built by `BaseNode.__call__` from a
mapping of predecessor outputs has one field per contributed output
class name (the mapping keys are ignored), bound to that instance's
dump; in particular, when every mapping key equals its instance's class
name — as when each output model was created under its producing node's
id — the fields are named after the contributing predecessors. -/
theorem composite_fields_are_class_names (input : List (String × NodeInstance))
    (hnd : ((input.map Prod.snd).map NodeInstance.className).Nodup) :
    buildCompositeData input =
      (input.map fun p => (p.2.className, Value.obj p.2.dump)) ∧
    ((∀ p ∈ input, p.1 = p.2.className) →
      (buildCompositeData input).map Prod.fst = input.map Prod.fst) := by
  have hmain : buildCompositeData input =
      (input.map fun p => (p.2.className, Value.obj p.2.dump)) := by
    rw [buildCompositeData]
    rw [insertLoop_fresh ((input.map Prod.snd).map fun inst =>
      (inst.className, Value.obj inst.dump)) []]
    · simp [List.map_map]
    · have hkeys : (((input.map Prod.snd).map fun inst =>
          (inst.className, Value.obj inst.dump)).map Prod.fst) =
          ((input.map Prod.snd).map NodeInstance.className) := by
        simp [List.map_map, Function.comp]
      rw [hkeys]
      exact hnd
    · intro p _
      simp
  refine ⟨hmain, fun hkey => ?_⟩
  rw [hmain, List.map_map]
  exact List.map_congr_left fun p hp => (hkey p hp).symm

/-- Witness for C6 (amended): two predecessors whose output class names
match their keys produce a composite with one correctly named field
each. -/
theorem composite_fields_are_class_names_witness :
    buildCompositeData
        [("A", { className := "A", dump := [] }),
         ("B", { className := "B", dump := [("x", Value.int 1)] })] =
      [("A", Value.obj []), ("B", Value.obj [("x", Value.int 1)])] ∧
    (buildCompositeData
        [("A", { className := "A", dump := [] }),
         ("B", { className := "B", dump := [("x", Value.int 1)] })]).map Prod.fst =
      ["A", "B"] := by
  have h := composite_fields_are_class_names
    [("A", { className := "A", dump := [] }),
     ("B", { className := "B", dump := [("x", Value.int 1)] })] (by decide)
  exact ⟨h.1.trans rfl, (h.2 (by decide)).trans rfl⟩

/-! ## C2: output validation in `BaseNode.__call__` -/

/-- Counterexample to C2 as stated: when `run` returns a non-model value
(Python `None`, as `CoalesceNode.run` does once every input is null),
the mismatch against the output model fails, but with an **untagged**
validation error — not one tagged with the unit's id. -/
theorem output_mismatch_can_escape_untagged :
    callOutputStage "coalesce_node" strictDictValidate none =
      Except.error (CallError.untaggedValidation
        "Input should be a valid dictionary") ∧
    isCallFailure (callOutputStage "coalesce_node" strictDictValidate none) = true ∧
    isTaggedValidation (callOutputStage "coalesce_node" strictDictValidate none) =
      false :=
  ⟨rfl, rfl, rfl⟩

/-- C2 (amended): after `run` returns a model value, its dump is
validated against the declared output shape; a mismatch fails with a
validation error tagged with the unit's name, and on success the value
returned to the caller is the validated output. When `run` returns a
non-model value such as `None`, the value is validated directly and a
mismatch propagates as an untagged validation error. -/
theorem call_output_validation (node_name : String)
    (validate : Value → Except String Obj) (r : Obj) :
    (∀ out : Obj, validate (Value.obj r) = Except.ok out →
      callOutputStage node_name validate (some r) = Except.ok out) ∧
    (∀ e : String, validate (Value.obj r) = Except.error e →
      callOutputStage node_name validate (some r) =
        Except.error (CallError.outputValidation node_name e)) ∧
    (∀ e : String, validate Value.null = Except.error e →
      callOutputStage node_name validate none =
        Except.error (CallError.untaggedValidation e)) := by
  refine ⟨?_, ?_, ?_⟩ <;> intro x h <;> simp [callOutputStage, h]

/-- Witness for C2 (amended): a passing validation returns the validated
output; a failing validation on a model result is tagged with the node
name; a failing validation on a `None` result is untagged. -/
theorem call_output_validation_witness :
    callOutputStage "n1" strictDictValidate (some [("a", Value.int 1)]) =
      Except.ok [("a", Value.int 1)] ∧
    callOutputStage "n1" rejectAllValidate (some [("a", Value.int 1)]) =
      Except.error (CallError.outputValidation "n1" "bad") ∧
    callOutputStage "n1" rejectAllValidate none =
      Except.error (CallError.untaggedValidation "bad") :=
  ⟨(call_output_validation "n1" strictDictValidate [("a", Value.int 1)]).1
      [("a", Value.int 1)] rfl,
   (call_output_validation "n1" rejectAllValidate [("a", Value.int 1)]).2.1
      "bad" rfl,
   (call_output_validation "n1" rejectAllValidate []).2.2 "bad" rfl⟩

/-! ## C5: the for-loop node -/

theorem loopDrive_closed {α : Type} (num_iterations : Int) (body : α → α) :
    ∀ (k : Nat) (iteration : Int) (s : α),
      (num_iterations - iteration).toNat = k →
      loopDrive num_iterations body iteration s = (body^[k] s, k) := by
  intro k
  induction k with
  | zero =>
    intro iteration s hk
    rw [loopDrive, if_pos]
    · rfl
    · simp only [stoppingCondition, decide_eq_true_eq, ge_iff_le]
      omega
  | succ n ih =>
    intro iteration s hk
    rw [loopDrive, if_neg]
    · have hstep := ih (iteration + 1) (body s) (by omega)
      simp only [hstep, Function.iterate_succ_apply]
    · simp only [stoppingCondition, decide_eq_true_eq, ge_iff_le]
      omega

/-- C5: a for-loop unit with `num_iterations = 5` over an inner pipeline
computing `count := count + 1` from `count = 0` yields a final count of 5
after exactly 5 nested-Executor invocations; and in general the stopping
predicate holds exactly when the iteration counter has reached
`num_iterations`. -/
theorem for_loop_five_iterations :
    loopDrive 5 (fun count : Int => count + 1) 0 0 = (5, 5) ∧
    (∀ iteration num_iterations : Int,
      stoppingCondition iteration num_iterations = true ↔
        iteration ≥ num_iterations) := by
  constructor
  · rw [loopDrive_closed 5 (fun count : Int => count + 1) 5 0 0 (by decide)]
    decide
  · intro iteration num_iterations
    simp [stoppingCondition]

/-- Witness for C5: the stopping predicate at concrete counters — it
holds at 5 of 5 and fails at 4 of 5. -/
theorem for_loop_five_iterations_witness :
    stoppingCondition 5 5 = true ∧ stoppingCondition 4 5 = false := by
  constructor
  · exact (for_loop_five_iterations.2 5 5).mpr (by norm_num)
  · have h := for_loop_five_iterations.2 4 5
    rw [Bool.eq_false_iff]
    intro hc
    exact absurd (h.mp hc) (by norm_num)

/-! ## Factory lemmas -/

theorem foundTruthy_some (o : Option (String × String))
    (h : foundTruthy o = true) : ∃ m c, o = some (m, c) := by
  cases o with
  | none => simp [foundTruthy] at h
  | some p => exact ⟨p.1, p.2, by simp⟩

theorem registeredIn_true (c : Catalog) (t : String) :
    registeredIn c t = true ↔ ∃ p ∈ c, ∃ e ∈ p.2, e.node_type_name = t := by
  simp [registeredIn, List.any_eq_true, beq_iff_eq]

theorem wf_groups (c : Catalog) (h : wellFormedCatalog c) :
    ∀ g ∈ c.map Prod.snd, ∀ e ∈ g, e.module ≠ "" ∧ e.class_name ≠ "" := by
  intro g hg e he
  obtain ⟨p, hp, rfl⟩ := List.mem_map.mp hg
  exact h p hp e he

theorem notRegistered_groups (c : Catalog) (t : String)
    (h : registeredIn c t = false) :
    ∀ g ∈ c.map Prod.snd, ∀ e ∈ g, e.node_type_name ≠ t := by
  intro g hg e he hname
  obtain ⟨p, hp, rfl⟩ := List.mem_map.mp hg
  have : registeredIn c t = true := (registeredIn_true c t).mpr ⟨p, hp, e, he, hname⟩
  rw [h] at this
  exact Bool.false_ne_true this

theorem scanGroups_no_match (type_name : String) :
    ∀ (groups : List (List NodeTypeEntry)) (st : Option (String × String)),
      (∀ g ∈ groups, ∀ e ∈ g, e.node_type_name ≠ type_name) →
      scanGroups type_name groups st = st := by
  intro groups
  induction groups with
  | nil => intro st _; rfl
  | cons g gs ih =>
    intro st h
    have hf : g.find? (fun e => e.node_type_name == type_name) = none := by
      rw [List.find?_eq_none]
      intro e he
      simp [h g (by simp) e he]
    rw [scanGroups]
    cases hft : foundTruthy st with
    | true => simp [hf, hft]
    | false =>
      simp only [hf, hft, if_false]
      exact ih st fun g' hg' => h g' (List.mem_cons_of_mem _ hg')

theorem scanGroups_truthy (type_name : String) :
    ∀ (groups : List (List NodeTypeEntry)) (st : Option (String × String)),
      (∀ g ∈ groups, ∀ e ∈ g, e.module ≠ "" ∧ e.class_name ≠ "") →
      (∃ g ∈ groups, ∃ e ∈ g, e.node_type_name = type_name) →
      foundTruthy (scanGroups type_name groups st) = true := by
  intro groups
  induction groups with
  | nil =>
    intro st _ hex
    obtain ⟨g, hg, _⟩ := hex
    exact absurd hg (List.not_mem_nil g)
  | cons g gs ih =>
    intro st wf hex
    rw [scanGroups]
    cases hf : g.find? (fun e => e.node_type_name == type_name) with
    | some e =>
      have hmem : e ∈ g := List.mem_of_find?_eq_some hf
      have hwf := wf g (by simp) e hmem
      simp [hf, foundTruthy, hwf.1, hwf.2]
    | none =>
      cases hft : foundTruthy st with
      | true => simp [hf, hft]
      | false =>
        simp only [hf, hft, if_false]
        refine ih st (fun g' hg' => wf g' (List.mem_cons_of_mem _ hg')) ?_
        obtain ⟨g', hg', e, he, hn⟩ := hex
        rcases List.mem_cons.mp hg' with rfl | hg'
        · exfalso
          have := List.find?_eq_none.mp hf e he
          simp [hn] at this
        · exact ⟨g', hg', e, he, hn⟩

theorem dictGet_some_mem {α : Type} (k : String) (d : List (String × α)) (v : α)
    (h : dictGet k d = some v) : k ∈ d.map Prod.fst := by
  induction d with
  | nil => simp [dictGet] at h
  | cons hd tl ih =>
    rw [dictGet] at h
    by_cases hk : hd.1 = k
    · simp [hk]
    · rw [if_neg hk] at h
      simp [ih h]

theorem dictGet_append_left_none {α : Type} (k : String)
    (d1 d2 : List (String × α)) (h : k ∉ d1.map Prod.fst) :
    dictGet k (d1 ++ d2) = dictGet k d2 := by
  induction d1 with
  | nil => rfl
  | cons hd tl ih =>
    simp only [List.map_cons, List.mem_cons] at h
    push_neg at h
    rw [List.cons_append, dictGet, if_neg (fun he => h.1 he.symm)]
    exact ih h.2

theorem listingAppend_last (d : Catalog) (k : String) (l : List NodeTypeEntry)
    (e : NodeTypeEntry) (h : k ∉ d.map Prod.fst) :
    listingAppend (d ++ [(k, l)]) k e = d ++ [(k, l ++ [e])] := by
  rw [listingAppend, List.map_append]
  have hcongr : ∀ p ∈ d,
      (if p.1 = k then (p.1, p.2 ++ [e]) else p) = id p := by
    intro p hp
    have hpk : p.1 ≠ k := fun hpk =>
      h (hpk ▸ (List.mem_map_of_mem Prod.fst hp : p.1 ∈ d.map Prod.fst))
    simp [hpk]
  rw [List.map_congr_left hcongr, List.map_id]
  simp

/-! ## C7: unknown type names in the factory -/

/-- C7: for every type name registered in neither the static catalog nor
the dynamic registry, `create_node` fails with the unknown-type error and
constructs no node; for every registered type name (with the nonempty
module/class strings every real registration carries) it succeeds, so
this error is never raised. -/
theorem create_node_unknown_type (staticCatalog dynRegistry : Catalog)
    (node_name type_name : String)
    (hs : wellFormedCatalog staticCatalog) (hd : wellFormedCatalog dynRegistry) :
    (registeredIn staticCatalog type_name = false ∧
        registeredIn dynRegistry type_name = false →
      create_node staticCatalog dynRegistry node_name type_name =
        Except.error (FactoryError.invalidType type_name)) ∧
    (registeredIn staticCatalog type_name = true ∨
        registeredIn dynRegistry type_name = true →
      ∃ r : CreatedNode,
        create_node staticCatalog dynRegistry node_name type_name =
          Except.ok r) := by
  constructor
  · rintro ⟨h1, h2⟩
    simp [create_node, is_valid_node_type, h1, h2]
  · intro hreg
    have hvalid : is_valid_node_type staticCatalog dynRegistry type_name = true := by
      rcases hreg with h | h <;> simp [is_valid_node_type, h]
    by_cases hstat : registeredIn staticCatalog type_name = true
    · have ht1 : foundTruthy
          (scanGroups type_name (staticCatalog.map Prod.snd) none) = true := by
        refine scanGroups_truthy type_name (staticCatalog.map Prod.snd) none
          (wf_groups staticCatalog hs) ?_
        obtain ⟨p, hp, e, he, hn⟩ := (registeredIn_true _ _).mp hstat
        exact ⟨p.2, List.mem_map_of_mem Prod.snd hp, e, he, hn⟩
      obtain ⟨m, cc, hmc⟩ := foundTruthy_some _ ht1
      rw [hmc] at ht1
      refine ⟨{ name := node_name, module := m, class_name := cc }, ?_⟩
      simp [create_node, hvalid, hmc, ht1]
    · have hstatF : registeredIn staticCatalog type_name = false :=
        Bool.not_eq_true _ ▸ Bool.eq_false_iff.mpr hstat
      have hdyn : registeredIn dynRegistry type_name = true := by
        rcases hreg with h | h
        · exact absurd h hstat
        · exact h
      have hst1 : scanGroups type_name (staticCatalog.map Prod.snd) none = none :=
        scanGroups_no_match type_name (staticCatalog.map Prod.snd) none
          (notRegistered_groups staticCatalog type_name hstatF)
      have ht2 : foundTruthy
          (scanGroups type_name (dynRegistry.map Prod.snd) none) = true := by
        refine scanGroups_truthy type_name (dynRegistry.map Prod.snd) none
          (wf_groups dynRegistry hd) ?_
        obtain ⟨p, hp, e, he, hn⟩ := (registeredIn_true _ _).mp hdyn
        exact ⟨p.2, List.mem_map_of_mem Prod.snd hp, e, he, hn⟩
      obtain ⟨m, cc, hmc⟩ := foundTruthy_some _ ht2
      rw [hmc] at ht2
      refine ⟨{ name := node_name, module := m, class_name := cc }, ?_⟩
      have hmcs : ¬ m = "" ∧ ¬ cc = "" := by simpa [foundTruthy] using ht2
      simp [create_node, hvalid, hst1, foundTruthy, hmc, hmcs.1, hmcs.2]

/-- Witness for C7: a one-entry static catalog; the unregistered name
`"Y"` is rejected with the unknown-type error, the registered name `"X"`
is created. -/
theorem create_node_unknown_type_witness :
    create_node
        [("Cat", [{ node_type_name := "X", module := "m1", class_name := "c1" }])]
        [] "n1" "Y" = Except.error (FactoryError.invalidType "Y") ∧
    (∃ r : CreatedNode,
      create_node
        [("Cat", [{ node_type_name := "X", module := "m1", class_name := "c1" }])]
        [] "n1" "X" = Except.ok r) :=
  ⟨(create_node_unknown_type
      [("Cat", [{ node_type_name := "X", module := "m1", class_name := "c1" }])]
      [] "n1" "Y" (by decide) (by decide)).1 ⟨rfl, rfl⟩,
   (create_node_unknown_type
      [("Cat", [{ node_type_name := "X", module := "m1", class_name := "c1" }])]
      [] "n1" "X" (by decide) (by decide)).2 (Or.inl rfl)⟩

/-! ## C8: static-catalog precedence -/

/-- Counterexample to C8 as stated: the type name `"X"` is registered in
the static catalog (category `"Cat1"`) **and** in the dynamic registry
(category `"Cat2"`), yet the merged listing still contains the dynamic
registry's entry for `"X"` — the per-category deduplication does not make
the static catalog win across categories when listing. -/
theorem listing_keeps_colliding_dynamic_entry :
    registeredIn
        [("Cat1", [{ node_type_name := "X", module := "m1", class_name := "c1" }])]
        "X" = true ∧
    factory_get_all_node_types
        [("Cat1", [{ node_type_name := "X", module := "m1", class_name := "c1" }])]
        [("Cat2", [{ node_type_name := "X", module := "m2", class_name := "c2" }])] =
      [("Cat1", [{ node_type_name := "X", module := "m1", class_name := "c1" }]),
       ("Cat2", [{ node_type_name := "X", module := "m2", class_name := "c2" }])] ∧
    (factory_get_all_node_types
        [("Cat1", [{ node_type_name := "X", module := "m1", class_name := "c1" }])]
        [("Cat2", [{ node_type_name := "X", module := "m2", class_name := "c2" }])]).any
      (fun p => p.2.any fun n =>
        n == { node_type_name := "X", module := "m2", class_name := "c2" }) =
      true :=
  ⟨rfl, rfl, rfl⟩

/-- C8 (amended): on a name collision the static catalog wins when
creating a unit — once the name is registered in the static catalog the
dynamic registry is never consulted, so the result is the same as with
an empty registry. In the listing, a dynamic entry is suppressed only
when an entry with the same type name is already present in the same
category; a same-named dynamic entry under a fresh category is appended
to the listing. -/
theorem static_catalog_precedence
    (staticCatalog dynRegistry configured : Catalog)
    (node_name type_name cat catNew : String)
    (g : List NodeTypeEntry) (e : NodeTypeEntry) :
    (wellFormedCatalog staticCatalog →
      registeredIn staticCatalog type_name = true →
      create_node staticCatalog dynRegistry node_name type_name =
        create_node staticCatalog [] node_name type_name) ∧
    (dictGet cat configured = some g →
      g.any (fun n => n.node_type_name == e.node_type_name) = true →
      factory_get_all_node_types configured [(cat, [e])] = configured) ∧
    (catNew ∉ configured.map Prod.fst →
      factory_get_all_node_types configured [(catNew, [e])] =
        configured ++ [(catNew, [e])]) := by
  refine ⟨?_, ?_, ?_⟩
  · intro hs hreg
    have ht1 : foundTruthy
        (scanGroups type_name (staticCatalog.map Prod.snd) none) = true := by
      refine scanGroups_truthy type_name (staticCatalog.map Prod.snd) none
        (wf_groups staticCatalog hs) ?_
      obtain ⟨p, hp, e', he', hn⟩ := (registeredIn_true _ _).mp hreg
      exact ⟨p.2, List.mem_map_of_mem Prod.snd hp, e', he', hn⟩
    obtain ⟨m, cc, hmc⟩ := foundTruthy_some _ ht1
    rw [hmc] at ht1
    have hvalidD : is_valid_node_type staticCatalog dynRegistry type_name = true := by
      simp [is_valid_node_type, hreg]
    have hvalidE : is_valid_node_type staticCatalog [] type_name = true := by
      simp [is_valid_node_type, hreg]
    simp [create_node, hvalidD, hvalidE, hmc, ht1]
  · intro hIn hname
    have hmem : cat ∈ configured.map Prod.fst := dictGet_some_mem cat configured g hIn
    simp only [factory_get_all_node_types, List.foldl_cons, List.foldl_nil,
      mergeCategory, hmem, if_true, dictGetD, hIn, Option.getD_some, hname,
      if_pos]
  · intro hnew
    have hget : dictGet catNew (configured ++ [(catNew, [])]) = some [] := by
      rw [dictGet_append_left_none catNew configured [(catNew, [])] hnew]
      simp [dictGet]
    simp only [factory_get_all_node_types, List.foldl_cons, List.foldl_nil,
      mergeCategory, hnew, if_false]
    simp only [dictGetD, hget, Option.getD_some, List.any_nil]
    rw [if_neg (by simp)]
    exact listingAppend_last configured catNew [] e hnew

/-- Witness for C8 (amended): at concrete one-entry catalogs — creation
ignores a colliding dynamic registry; a same-category collision leaves
the listing unchanged; a fresh-category collision appends the dynamic
entry. -/
theorem static_catalog_precedence_witness :
    create_node
        [("Cat", [{ node_type_name := "X", module := "m1", class_name := "c1" }])]
        [("Cat2", [{ node_type_name := "X", module := "m2", class_name := "c2" }])]
        "n1" "X" =
      create_node
        [("Cat", [{ node_type_name := "X", module := "m1", class_name := "c1" }])]
        [] "n1" "X" ∧
    factory_get_all_node_types
        [("Cat", [{ node_type_name := "X", module := "m1", class_name := "c1" }])]
        [("Cat", [{ node_type_name := "X", module := "m2", class_name := "c2" }])] =
      [("Cat", [{ node_type_name := "X", module := "m1", class_name := "c1" }])] ∧
    factory_get_all_node_types
        [("Cat", [{ node_type_name := "X", module := "m1", class_name := "c1" }])]
        [("CatNew", [{ node_type_name := "X", module := "m2", class_name := "c2" }])] =
      [("Cat", [{ node_type_name := "X", module := "m1", class_name := "c1" }]),
       ("CatNew", [{ node_type_name := "X", module := "m2", class_name := "c2" }])] :=
  ⟨(static_catalog_precedence
      [("Cat", [{ node_type_name := "X", module := "m1", class_name := "c1" }])]
      [("Cat2", [{ node_type_name := "X", module := "m2", class_name := "c2" }])]
      [] "n1" "X" "" "" [] { node_type_name := "X", module := "m2", class_name := "c2" }).1
      (by decide) rfl,
   (static_catalog_precedence [] []
      [("Cat", [{ node_type_name := "X", module := "m1", class_name := "c1" }])]
      "" "" "Cat" ""
      [{ node_type_name := "X", module := "m1", class_name := "c1" }]
      { node_type_name := "X", module := "m2", class_name := "c2" }).2.1 rfl rfl,
   (static_catalog_precedence [] []
      [("Cat", [{ node_type_name := "X", module := "m1", class_name := "c1" }])]
      "" "" "" "CatNew" []
      { node_type_name := "X", module := "m2", class_name := "c2" }).2.2 (by decide)⟩

end PySpur
